import Mathlib

/-!
Verification of the zerobyte-firmware-utils OTA update engine.

The development shallowly embeds two source modules:

* `ZeroByteFirmwareUtils.js` — the firmware-index resolver
  (`get_latest_fw_info` and its helpers), modelled as pure functions over
  an explicit representation of the JSON firmware index.
* `ZeroByteDFU.js` (class `DFUHandler`) — the OTA protocol engine and the
  update orchestrator, modelled as state-passing functions over an oracle
  of BLE operation outcomes; every GATT operation appends an event to a
  trace, so temporal properties are statements about the produced trace.
-/

/-- Decidable equality for `Except`, so that concrete resolver runs can be
checked by `decide`. -/
instance {ε α : Type} [DecidableEq ε] [DecidableEq α] : DecidableEq (Except ε α)
  | .ok a, .ok b => decidable_of_iff (a = b) (by simp)
  | .error a, .error b => decidable_of_iff (a = b) (by simp)
  | .ok _, .error _ => isFalse (by simp)
  | .error _, .ok _ => isFalse (by simp)

namespace ZB

/-! ## Firmware index data model (ZeroByteFirmwareUtils.js)

A `FirmwareInfo` mirrors one version entry of the index JSON.  The JS code
mutates the selected entry with `info['version'] = latest_fw_version`; the
`version` field is therefore optional and starts out absent. -/

structure FirmwareInfo where
  name : String
  url : String
  md5 : String
  apploader : Option String := none
  version : Option String := none
  deriving Repr, DecidableEq

/-- One model's object in the index: the optional distinguished `latest`
property together with the version-keyed entries in insertion order
(`Object.keys` order). -/
structure DeviceFirmware where
  latest : Option String
  versions : List (String × FirmwareInfo)
  deriving Repr, DecidableEq

/-- The top-level index: mapping from model token to `DeviceFirmware`. -/
abbrev FirmwareIndex := List (String × DeviceFirmware)

/-- The sentinel error codes of `ZeroByteErrorCodes.js`. -/
inductive ZeroByteErrorCodes where
  | FIRMWARE_INDEX_UNAVAILABLE
  | FIRMWARE_INDEX_MALFORMED
  | FIRMWARE_INDEX_DEVICE_UNKNOWN
  | FIRMWARE_INDEX_LATEST_VERSION_UNKNOWN
  | FIRMWARE_BUNDLE_UNAVAILABLE
  | UNKNOWN_ERROR
  deriving Repr, DecidableEq

/-- What `get_latest_fw_info` can throw: one of the sentinel codes, or a
JavaScript `TypeError` (raised by `info['version'] = ...` when the lookup
`model_infos[latest_fw_version]` produced `undefined`). -/
inductive JsError where
  | code (c : ZeroByteErrorCodes)
  | typeError
  deriving Repr, DecidableEq

/-- JS property read `model_infos[key]` for a possibly-undefined key.
An `undefined` key or an absent property yields `undefined` (`none`). -/
def js_get (model_infos : DeviceFirmware) (key : Option String) : Option FirmwareInfo :=
  match key with
  | none => none
  | some k => (model_infos.versions.find? (fun p => p.1 == k)).map Prod.snd

/-- Lines 202–214 of `ZeroByteFirmwareUtils.js`: determine `latest_fw_version`.
If the object has a `latest` property it is used; otherwise, when the object
has more than one version key the code throws
`FIRMWARE_INDEX_LATEST_VERSION_UNKNOWN`, and otherwise it uses
`Object.keys(model_infos)[0]` — which is `undefined` (`none`) when the
object has no version keys at all. -/
def determine_latest (model_infos : DeviceFirmware) :
    Except JsError (Option String) :=
  match model_infos.latest with
  | none =>
    let versions := model_infos.versions.map Prod.fst
    if versions.length > 1 then
      .error (.code .FIRMWARE_INDEX_LATEST_VERSION_UNKNOWN)
    else
      .ok versions[0]?
  | some l => .ok (some l)

/-- `get_latest_fw_info` (lines 190–237 of `ZeroByteFirmwareUtils.js`),
with the already-fetched index passed in place of the HTTP retrieval.
The returned plan is a list of possibly-`undefined` entries, because the
apploader lookup result is pushed without any check:
`infos.push(model_infos[apploader_version])`.  Note the code pushes the
application entry first and the apploader entry second. -/
def get_latest_fw_info (fw_index : FirmwareIndex) (model_name : String)
    (current_fw_version : Option String := none) :
    Except JsError (List (Option FirmwareInfo)) :=
  match fw_index.find? (fun p => p.1 == model_name) with
  | none => .error (.code .FIRMWARE_INDEX_DEVICE_UNKNOWN)
  | some (_, model_infos) =>
    match determine_latest model_infos with
    | .error e => .error e
    | .ok latest_fw_version =>
      if current_fw_version ≠ latest_fw_version then
        match js_get model_infos latest_fw_version with
        | none => .error .typeError
        | some info =>
          let info := { info with version := latest_fw_version }
          match info.apploader with
          | some apploader_version =>
            .ok [some info, js_get model_infos (some apploader_version)]
          | none => .ok [some info]
      else
        .ok []

/-! Concrete indices used by the counterexamples and witnesses. -/

/-- An apploader artifact entry. -/
def aplInfo : FirmwareInfo :=
  { name := "fw_apl", url := "u-apl", md5 := "m1" }

/-- An application artifact entry that declares an apploader prerequisite. -/
def appInfo : FirmwareInfo :=
  { name := "fw_app", url := "u-app", md5 := "m2", apploader := some "a1" }

/-- A model object whose latest version `v2` requires apploader `a1`. -/
def dfWithApl : DeviceFirmware :=
  { latest := some "v2", versions := [("v2", appInfo), ("a1", aplInfo)] }

/-- Index with a single model `ma` whose latest entry has an apploader. -/
def idxWithApl : FirmwareIndex := [("ma", dfWithApl)]

/-- A model object with no `latest` property and no version keys at all. -/
def dfEmpty : DeviceFirmware := { latest := none, versions := [] }

/-- Index containing only the empty model object. -/
def idxEmpty : FirmwareIndex := [("me", dfEmpty)]

/-- Like `dfWithApl` but the apploader version key is missing. -/
def dfDangling : DeviceFirmware :=
  { latest := some "v2", versions := [("v2", appInfo)] }

/-- Index whose selected entry names an apploader key that does not exist. -/
def idxDangling : FirmwareIndex := [("md", dfDangling)]

/-! ### Resolver claims -/

/-- Helper: the apploader branch of `get_latest_fw_info`, shared by the
apploader-ordering and dangling-apploader results. -/
theorem get_latest_fw_info_apl_case (fw_index : FirmwareIndex)
    (model_name : String) (current : Option String) (d : DeviceFirmware)
    (lv : String) (info : FirmwareInfo) (av : String)
    (hfind : fw_index.find? (fun p => p.1 == model_name) = some (model_name, d))
    (hlat : determine_latest d = .ok (some lv))
    (hcur : current ≠ some lv)
    (hinfo : js_get d (some lv) = some info)
    (hapl : info.apploader = some av) :
    get_latest_fw_info fw_index model_name current =
      .ok [some { info with version := some lv }, js_get d (some av)] := by
  simp [get_latest_fw_info, hfind, hlat, hcur, hinfo, hapl]

/-- C1: the claim states that when the selected latest `FirmwareInfo`
declares an apploader prerequisite, the plan has the apploader at index 0
and the application at index 1.  On the concrete index `idxWithApl` the
code instead returns the application (the entry carrying the `apploader`
field) at index 0 and the apploader at index 1: `infos.push(info)` runs
before `infos.push(apploader_info)`. -/
theorem C1_counterexample :
    get_latest_fw_info idxWithApl "ma" (some "v1") =
      .ok [some { appInfo with version := some "v2" }, some aplInfo] ∧
    ({ appInfo with version := some "v2" } : FirmwareInfo).apploader = some "a1" ∧
    aplInfo.apploader = none ∧
    some aplInfo ≠ (some { appInfo with version := some "v2" } : Option FirmwareInfo) := by
  decide

/-- C1 (amended): when the selected latest `FirmwareInfo` declares an
apploader prerequisite, the plan has length 2 with the **application** at
index 0 and the apploader (looked up in the same `DeviceFirmware`,
appended, not prepended) at index 1. -/
theorem C1_amended (fw_index : FirmwareIndex) (model_name : String)
    (current : Option String) (d : DeviceFirmware) (lv : String)
    (info : FirmwareInfo) (av : String)
    (hfind : fw_index.find? (fun p => p.1 == model_name) = some (model_name, d))
    (hlat : determine_latest d = .ok (some lv))
    (hcur : current ≠ some lv)
    (hinfo : js_get d (some lv) = some info)
    (hapl : info.apploader = some av) :
    get_latest_fw_info fw_index model_name current =
      .ok [some { info with version := some lv }, js_get d (some av)] :=
  get_latest_fw_info_apl_case fw_index model_name current d lv info av
    hfind hlat hcur hinfo hapl

/-- C1 witness: the amended behaviour at the concrete index `idxWithApl`. -/
theorem C1_witness :
    get_latest_fw_info idxWithApl "ma" (some "v1") =
      .ok [some { appInfo with version := some "v2" }, js_get dfWithApl (some "a1")] :=
  C1_amended idxWithApl "ma" (some "v1") dfWithApl "v2" appInfo "a1"
    (by decide) (by decide) (by decide) (by decide) (by decide)

/-- C3: the claim says the returned plan's **last** element has
`version = latest`.  On `idxWithApl` (current `v1`, latest `v2`) the last
element is the appended apploader entry, whose `version` field was never
populated; only the first element carries `version = latest`. -/
theorem C3_counterexample :
    determine_latest dfWithApl = .ok (some "v2") ∧
    (some "v1" : Option String) ≠ some "v2" ∧
    get_latest_fw_info idxWithApl "ma" (some "v1") =
      .ok [some { appInfo with version := some "v2" }, some aplInfo] ∧
    aplInfo.version ≠ some "v2" := by
  decide

/-- C3 (amended): if the current version equals the selected latest the
plan is empty; if it differs, the plan's **first** element is the selected
entry with its `version` field set to the latest version (the appended
apploader entry, when present, does not get a `version`). -/
theorem C3_amended (fw_index : FirmwareIndex) (model_name : String)
    (current : Option String) (d : DeviceFirmware) (lv : String)
    (info : FirmwareInfo)
    (hfind : fw_index.find? (fun p => p.1 == model_name) = some (model_name, d))
    (hlat : determine_latest d = .ok (some lv))
    (hinfo : js_get d (some lv) = some info) :
    (current = some lv → get_latest_fw_info fw_index model_name current = .ok []) ∧
    (current ≠ some lv →
      get_latest_fw_info fw_index model_name current =
        .ok (some { info with version := some lv } ::
          (match info.apploader with
           | some av => [js_get d (some av)]
           | none => []))) ∧
    ({ info with version := some lv } : FirmwareInfo).version = some lv := by
  refine ⟨fun heq => ?_, fun hne => ?_, rfl⟩
  · simp [get_latest_fw_info, hfind, hlat, heq]
  · simp only [get_latest_fw_info, hfind, hlat, hinfo]
    rw [if_pos hne]
    cases h : info.apploader <;> simp [h]

/-- C3 witness: the amended behaviour at `idxWithApl` with current `v1`. -/
theorem C3_witness :
    ((some "v1" : Option String) = some "v2" →
      get_latest_fw_info idxWithApl "ma" (some "v1") = .ok []) ∧
    ((some "v1" : Option String) ≠ some "v2" →
      get_latest_fw_info idxWithApl "ma" (some "v1") =
        .ok (some { appInfo with version := some "v2" } ::
          (match appInfo.apploader with
           | some av => [js_get dfWithApl (some av)]
           | none => []))) ∧
    ({ appInfo with version := some "v2" } : FirmwareInfo).version = some "v2" :=
  C3_amended idxWithApl "ma" (some "v1") dfWithApl "v2" appInfo
    (by decide) (by decide) (by decide)

/-- C4: the claim states that with no `latest` field the resolver fails
with `LATEST_UNKNOWN` for any number of version keys other than one, in
particular for zero keys.  On the empty model object `dfEmpty` the code
does not fail: `versions.length > 1` is false, `Object.keys(...)[0]` is
`undefined`, and with no current version the comparison
`undefined !== undefined` makes the resolver return an empty plan. -/
theorem C4_counterexample :
    dfEmpty.latest = none ∧
    dfEmpty.versions.length = 0 ∧
    get_latest_fw_info idxEmpty "me" none = .ok [] ∧
    (Except.ok ([] : List (Option FirmwareInfo)) : Except JsError _) ≠
      .error (.code .FIRMWARE_INDEX_LATEST_VERSION_UNKNOWN) := by
  decide

/-- C4 (amended): with a `latest` field that version is used; with no
`latest` and exactly one version key that key is used; with no `latest`
and two or more keys the resolver fails with `LATEST_UNKNOWN`.  With zero
keys it does **not** fail with `LATEST_UNKNOWN`: the latest version is
`undefined`, so the resolver returns an empty plan when no current version
is supplied, and raises a `TypeError` when one is. -/
theorem C4_amended (fw_index : FirmwareIndex) (model_name : String)
    (current : Option String) (d : DeviceFirmware) (l v s : String)
    (i : FirmwareInfo)
    (hfind : fw_index.find? (fun p => p.1 == model_name) = some (model_name, d)) :
    (d.latest = some l → determine_latest d = .ok (some l)) ∧
    (d.latest = none → d.versions = [(v, i)] → determine_latest d = .ok (some v)) ∧
    (d.latest = none → 1 < d.versions.length →
      get_latest_fw_info fw_index model_name current =
        .error (.code .FIRMWARE_INDEX_LATEST_VERSION_UNKNOWN)) ∧
    (d.latest = none → d.versions = [] →
      get_latest_fw_info fw_index model_name none = .ok []) ∧
    (d.latest = none → d.versions = [] →
      get_latest_fw_info fw_index model_name (some s) = .error .typeError) := by
  refine ⟨fun hl => ?_, fun hn hv => ?_, fun hn hlen => ?_, fun hn hv => ?_,
    fun hn hv => ?_⟩
  · simp [determine_latest, hl]
  · simp [determine_latest, hn, hv]
  · simp [get_latest_fw_info, determine_latest, hfind, hn, hlen]
  · simp [get_latest_fw_info, determine_latest, hfind, hn, hv]
  · simp [get_latest_fw_info, determine_latest, hfind, hn, hv, js_get]

/-- C4 witness: the amended behaviour at the empty model object. -/
theorem C4_witness :
    (dfEmpty.latest = some "x" → determine_latest dfEmpty = .ok (some "x")) ∧
    (dfEmpty.latest = none → dfEmpty.versions = [("x", aplInfo)] →
      determine_latest dfEmpty = .ok (some "x")) ∧
    (dfEmpty.latest = none → 1 < dfEmpty.versions.length →
      get_latest_fw_info idxEmpty "me" none =
        .error (.code .FIRMWARE_INDEX_LATEST_VERSION_UNKNOWN)) ∧
    (dfEmpty.latest = none → dfEmpty.versions = [] →
      get_latest_fw_info idxEmpty "me" none = .ok []) ∧
    (dfEmpty.latest = none → dfEmpty.versions = [] →
      get_latest_fw_info idxEmpty "me" (some "20220101.abc") = .error .typeError) :=
  C4_amended idxEmpty "me" none dfEmpty "x" "x" "20220101.abc" aplInfo (by decide)

/-- C10: when the selected latest entry names an apploader version key
that is absent from the same `DeviceFirmware`, `get_latest_fw_info` does
not raise: `model_infos[apploader_version]` is `undefined` and is pushed
as-is, so the plan contains an undefined element at index 1. -/
theorem C10_dangling_apploader (fw_index : FirmwareIndex) (model_name : String)
    (current : Option String) (d : DeviceFirmware) (lv : String)
    (info : FirmwareInfo) (av : String)
    (hfind : fw_index.find? (fun p => p.1 == model_name) = some (model_name, d))
    (hlat : determine_latest d = .ok (some lv))
    (hcur : current ≠ some lv)
    (hinfo : js_get d (some lv) = some info)
    (hapl : info.apploader = some av)
    (hmiss : js_get d (some av) = none) :
    get_latest_fw_info fw_index model_name current =
      .ok [some { info with version := some lv }, none] := by
  have h := get_latest_fw_info_apl_case fw_index model_name current d lv info av
    hfind hlat hcur hinfo hapl
  rw [h, hmiss]

/-- C10 witness: the dangling-apploader index `idxDangling`. -/
theorem C10_witness :
    get_latest_fw_info idxDangling "md" (some "v1") =
      .ok [some { appInfo with version := some "v2" }, none] :=
  C10_dangling_apploader idxDangling "md" (some "v1") dfDangling "v2" appInfo "a1"
    (by decide) (by decide) (by decide) (by decide) (by decide) (by decide)

/-! ## OTA protocol engine and orchestrator (ZeroByteDFU.js, class DFUHandler)

Each BLE operation of the source either resolves or rejects; the model
draws the outcome of the n-th fallible operation from an oracle
`ble : Nat → Bool` and appends an event recording the operation and its
outcome to a trace.  A JS `try`/`catch` around an operation is modelled at
its call site; where the source leaves a rejection unguarded the modelled
function returns `Except.error ()`.  Delays, logging and status-message
callbacks perform no BLE work and are not modelled; `onProgress` calls are
recorded as `progress` events.  The negotiated MTU (read back in
`ota_connect_and_discover` to set `this.BLOCK_SIZE`) is a fixed property
of the peripheral, passed as a parameter `mtu`. -/

def REQUEST_MTU : Nat := 245

def CTL_START : Nat := 0x00

def CTL_DONE : Nat := 0x03

def CTL_CLOSE : Nat := 0x04

def REBOOT_DELAY_MS : Nat := 2500

/-- `this.BLOCK_SIZE = (dev.mtu > 8) ? (dev.mtu - 8) : 1`
(line 1552 of `ZeroByteDFU.js`). -/
def BLOCK_SIZE (mtu : Nat) : Nat := if mtu > 8 then mtu - 8 else 1

/-- Observable events of one orchestrator run.  The two writes of
`CTL_START` (0x00) to OTA Control are distinguished by their source
call-site: `rebootCmd` is the write in `ota_reboot_device_into_dfu`,
`armCmd` the arming write in `ota_write_start_command_to_control`. -/
inductive Ev where
  | connectAttempt (ok : Bool)
  | confirmDFU (ok : Bool)
  | rebootCmd (ok : Bool)
  | armCmd (ok : Bool)
  | dataWrite (payload : List Nat) (ok : Bool)
  | ctlDone (ok : Bool)
  | ctlClose (ok : Bool)
  | cancelConn (ok : Bool)
  | progress (v : Rat)
  deriving Repr, DecidableEq

/-- Model state: the outcome oracle, the index of the next fallible BLE
operation, and the event trace so far. -/
structure St where
  ble : Nat → Bool
  k : Nat
  trace : List Ev

/-- Perform one fallible BLE operation: consume the next oracle outcome
and record the event. -/
def step (mk : Bool → Ev) (s : St) : Bool × St :=
  (s.ble s.k, { s with k := s.k + 1, trace := s.trace ++ [mk (s.ble s.k)] })

/-- Record an infallible observable action (an `onProgress` call). -/
def emit (e : Ev) (s : St) : St := { s with trace := s.trace ++ [e] }

/-- `ota_connect_and_discover` (lines 1530–1559): delay, connect,
discover services, request the MTU.  The whole body is in one
`try`/`catch` returning `false` on any failure, so it is one fallible
step. -/
def ota_connect_and_discover (s : St) : Bool × St :=
  step Ev.connectAttempt s

/-- `ota_confirm_device_in_dfu` (lines 1411–1428): read the Gecko
Bootloader Version characteristic; `true` exactly when the read
succeeds (the rejection handler sets `result = false`). -/
def ota_confirm_device_in_dfu (s : St) : Bool × St :=
  step Ev.confirmDFU s

/-- `ota_write_start_command_to_control` (lines 1362–1380): write
`CTL_START` with response inside `try`/`catch`; `true` iff the write
succeeded. -/
def ota_write_start_command_to_control (s : St) : Bool × St :=
  step Ev.armCmd s

/-- `ota_end_upload_process` (lines 1382–1409): write `CTL_DONE` with
response, then `CTL_CLOSE` without response, inside one `try`/`catch`;
`true` only when both writes succeed (a failure of the first skips the
second). -/
def ota_end_upload_process (s : St) : Bool × St :=
  let r1 := step Ev.ctlDone s
  if r1.1 then step Ev.ctlClose r1.2
  else (false, r1.2)

/-- `ota_reboot_device_into_dfu` (lines 1503–1520): write `CTL_START`
then cancel the connection inside `try`; on a failure the `catch` block
cancels the connection again — and that second cancel is itself
unguarded, so its rejection propagates (`Except.error`). -/
def ota_reboot_device_into_dfu (s : St) : Except Unit Bool × St :=
  let r1 := step Ev.rebootCmd s
  if r1.1 then
    let r2 := step Ev.cancelConn r1.2
    if r2.1 then (.ok true, r2.2)
    else
      let r3 := step Ev.cancelConn r2.2
      if r3.1 then (.ok false, r3.2) else (.error (), r3.2)
  else
    let r2 := step Ev.cancelConn r1.2
    if r2.1 then (.ok false, r2.2) else (.error (), r2.2)

/-- The while-loop of `ota_write_firmware_to_device_in_dfu`
(lines 1570–1586): slice `BLOCK_SIZE` bytes, write them to OTA Data
without response — with a per-write rejection handler whose
`return bytesWritten` only leaves the handler, so the loop continues and
`bytesWritten` grows regardless of the outcome — then report progress.
The loop strictly shortens `bytes` whenever it recurses, so recursion on
the `fuel` bound (instantiated with `bytes.length` at the call site,
which the lemmas below show is never exhausted) mirrors the `while`
exactly. -/
def ota_upload_loop (bs total : Nat) : Nat → List Nat → Nat → St → Nat × St
  | 0, _, bytesWritten, s => (bytesWritten, s)
  | fuel + 1, bytes, bytesWritten, s =>
    if bs = 0 ∨ bytes = [] then (bytesWritten, s)
    else
      let currentSlice := bytes.take bs
      let s1 := (step (Ev.dataWrite currentSlice) s).2
      let bw := bytesWritten + min currentSlice.length bs
      let s2 := emit (Ev.progress ((bw : Rat) / (total : Rat))) s1
      ota_upload_loop bs total fuel (bytes.drop bs) bw s2

/-- The successive `bytes.slice(index, index + BLOCK_SIZE)` values taken
by the upload loop, with the same fuel bound. -/
def ota_chunks (bs : Nat) : Nat → List Nat → List (List Nat)
  | 0, _ => []
  | fuel + 1, bytes =>
    if bs = 0 ∨ bytes = [] then []
    else bytes.take bs :: ota_chunks bs fuel (bytes.drop bs)

/-- `ota_write_firmware_to_device_in_dfu` (lines 1561–1598): arm with
`CTL_START` (returning 0 if that fails), run the upload loop, delay, then
the `CTL_DONE`/`CTL_CLOSE` handshake (returning 0 if that fails), report
progress 1 and return `bytesWritten`. -/
def ota_write_firmware_to_device_in_dfu (mtu : Nat) (bytes : List Nat)
    (s : St) : Nat × St :=
  let r1 := ota_write_start_command_to_control s
  if r1.1 then
    let r2 := ota_upload_loop (BLOCK_SIZE mtu) bytes.length bytes.length bytes 0 r1.2
    let r3 := ota_end_upload_process r2.2
    if r3.1 then (r2.1, emit (Ev.progress 1) r3.2)
    else (0, r3.2)
  else (0, r1.2)

/-- Lines 1463–1486 of `ota_perform_device_update`: once the device is
confirmed in DFU, reset progress to 0, upload the image, and defensively
cancel the connection.  A rejection of that cancel is caught by the
function's outer `try`/`catch` with `totalBytesWritten` already set, so
the cancel outcome never affects the result
`totalBytesWritten === firmwareBytes.length`. -/
def ota_upload_and_cancel (mtu : Nat) (bytes : List Nat) (s : St) : Bool × St :=
  let s0 := emit (Ev.progress 0) s
  let r1 := ota_write_firmware_to_device_in_dfu mtu bytes s0
  let s2 := (step Ev.cancelConn r1.2).2
  (decide (r1.1 = bytes.length), s2)

/-- The `else` block of `ota_perform_device_update` (lines 1445–1461):
reboot into DFU (`return false` on failure), reconnect, re-confirm DFU
(`&&=` short-circuits, and `return false` on failure), then upload.  An
exception escaping `ota_reboot_device_into_dfu` is caught by the outer
`try`/`catch` of `ota_perform_device_update`, after which that function
returns `totalBytesWritten === firmwareBytes.length` with
`totalBytesWritten` still 0. -/
def ota_reboot_and_upload (mtu : Nat) (bytes : List Nat) (s : St) : Bool × St :=
  let r1 := ota_reboot_device_into_dfu s
  match r1.1 with
  | .error _ => (decide (0 = bytes.length), r1.2)
  | .ok false => (false, r1.2)
  | .ok true =>
    let r2 := ota_connect_and_discover r1.2
    if !r2.1 then (false, r2.2)
    else
      let r3 := ota_confirm_device_in_dfu r2.2
      if !r3.1 then (false, r3.2)
      else ota_upload_and_cancel mtu bytes r3.2

/-- `ota_perform_device_update` (lines 1430–1487): connect, then either
confirm DFU directly (`skip_reboot && await ota_confirm_device_in_dfu()`,
with `&&` short-circuiting) or go through the reboot path, then upload. -/
def ota_perform_device_update (skip_reboot : Bool) (mtu : Nat)
    (bytes : List Nat) (s : St) : Bool × St :=
  let r1 := ota_connect_and_discover s
  if !r1.1 then (false, r1.2)
  else
    let r2 := if skip_reboot then ota_confirm_device_in_dfu r1.2 else (false, r1.2)
    if r2.1 then ota_upload_and_cancel mtu bytes r2.2
    else ota_reboot_and_upload mtu bytes r2.2

/-- `ota_flash` (lines 1295–1309), with the file read abstracted to the
already-loaded `bytes`: perform the update and, on failure, cancel the
connection, wait the reboot delay and retry once.  The cancel before the
retry is **not** inside a `try`/`catch`, so its rejection propagates to
the caller (`Except.error`). -/
def ota_flash (skip_reboot : Bool) (mtu : Nat) (bytes : List Nat) (s : St) :
    Except Unit Bool × St :=
  let r1 := ota_perform_device_update skip_reboot mtu bytes s
  if r1.1 then (.ok true, r1.2)
  else
    let r2 := step Ev.cancelConn r1.2
    if r2.1 then
      let r3 := ota_perform_device_update skip_reboot mtu bytes r2.2
      (.ok r3.1, r3.2)
    else (.error (), r2.2)

/-- The loop of `ota_turnkey_firmware_update` (lines 1337–1357), already
specialised to the reversed iteration order (`i = length−1 … 0`): each
iteration defensively cancels the connection (inside `try`/`catch`,
failure ignored), flashes the image, and forces `skipReboot = true` for
the remaining images; when a flash returns `false` the loop condition
`result && (i >= 0)` stops the iteration. -/
def ota_turnkey_loop (mtu : Nat) (images : List (List Nat))
    (skipReboot : Bool) (s : St) : Except Unit Bool × St :=
  match images with
  | [] => (.ok true, s)
  | bytes :: rest =>
    let s1 := (step Ev.cancelConn s).2
    let r := ota_flash skipReboot mtu bytes s1
    match r.1 with
    | .error e => (.error e, r.2)
    | .ok res =>
      if res then ota_turnkey_loop mtu rest true r.2 else (.ok false, r.2)

/-- `ota_turnkey_firmware_update` (lines 1323–1360), with the
resolver/download stage abstracted to the list of image byte arrays it
produced: an empty plan reports progress `100` and returns `−1`;
otherwise the images are applied from last to first, returning `1` when
every image succeeded and `0` otherwise. -/
def ota_turnkey_firmware_update (mtu : Nat) (images : List (List Nat))
    (isInOTA : Bool) (s : St) : Except Unit Int × St :=
  if images.length = 0 then (.ok (-1), emit (Ev.progress 100) s)
  else
    let r := ota_turnkey_loop mtu images.reverse isInOTA s
    match r.1 with
    | .error e => (.error e, r.2)
    | .ok res => (.ok (if res then 1 else 0), r.2)

/-! ### Trace analysis -/

/-- Payloads of the OTA Data writes of a trace, in order. -/
def dataWrites (tr : List Ev) : List (List Nat) :=
  tr.filterMap fun e => match e with
    | Ev.dataWrite p _ => some p
    | _ => none

/-- Values passed to the progress callback, in order. -/
def progressValues (tr : List Ev) : List Rat :=
  tr.filterMap fun e => match e with
    | Ev.progress v => some v
    | _ => none

/-- The OTA Data writes of a trace with their outcomes, in order. -/
def dataWriteRuns (tr : List Ev) : List (List Nat × Bool) :=
  tr.filterMap fun e => match e with
    | Ev.dataWrite p b => some (p, b)
    | _ => none

/-- Events that are neither OTA Data writes nor arming `CTL_START` writes
nor failed handshake writes — everything the engine may emit before the
upload stage. -/
def preEv (e : Ev) : Prop :=
  (∀ p b, e ≠ Ev.dataWrite p b) ∧ (∀ x, e ≠ Ev.armCmd x) ∧
    e ≠ Ev.ctlDone false ∧ e ≠ Ev.ctlClose false

/-- The state-machine safety property of a trace: every OTA Data write is
preceded by a successful arming `CTL_START`, and every arming `CTL_START`
(successful or not) is preceded by a successful read of the Gecko
Bootloader Version characteristic. -/
def dfu_safety (tr : List Ev) : Prop :=
  (∀ (i : Nat) (p : List Nat) (b : Bool), tr[i]? = some (Ev.dataWrite p b) →
    ∃ j : Nat, j < i ∧ tr[j]? = some (Ev.armCmd true)) ∧
  (∀ (j : Nat) (x : Bool), tr[j]? = some (Ev.armCmd x) →
    ∃ m : Nat, m < j ∧ tr[m]? = some (Ev.confirmDFU true))

/-- A trace with no data writes and no arming commands is vacuously
safe. -/
theorem dfu_safety_nodata (tr : List Ev)
    (h : ∀ e ∈ tr, (∀ p b, e ≠ Ev.dataWrite p b) ∧ ∀ x, e ≠ Ev.armCmd x) :
    dfu_safety tr := by
  constructor
  · intro i p b hi
    exact absurd rfl ((h _ (List.getElem?_mem hi)).1 p b)
  · intro j x hj
    exact absurd rfl ((h _ (List.getElem?_mem hj)).2 x)

/-- A trace of the form `A ++ armCmd a :: B` is safe provided `A` holds a
successful DFU confirmation, `A` holds no data write and no arm command,
`B` holds no arm command, and `B` holds no data write when the arming
failed. -/
theorem dfu_safety_split (A B : List Ev) (a : Bool) (k : Nat)
    (hk : A[k]? = some (Ev.confirmDFU true))
    (hA : ∀ e ∈ A, (∀ p b, e ≠ Ev.dataWrite p b) ∧ ∀ x, e ≠ Ev.armCmd x)
    (hB : ∀ e ∈ B, ∀ x, e ≠ Ev.armCmd x)
    (hBdata : a = false → ∀ e ∈ B, ∀ p b, e ≠ Ev.dataWrite p b) :
    dfu_safety (A ++ Ev.armCmd a :: B) := by
  have hkA : k < A.length := (List.getElem?_eq_some.mp hk).1
  have hmid : (A ++ Ev.armCmd a :: B)[A.length]? = some (Ev.armCmd a) := by
    rw [List.getElem?_append_right (le_refl _)]
    simp
  constructor
  · intro i p b hi
    rcases lt_trichotomy i A.length with hlt | heq | hgt
    · rw [List.getElem?_append_left hlt] at hi
      exact absurd rfl ((hA _ (List.getElem?_mem hi)).1 p b)
    · rw [heq, hmid] at hi
      exact absurd hi (by simp)
    · cases a with
      | false =>
        rw [List.getElem?_append_right (Nat.le_of_lt hgt)] at hi
        obtain ⟨m, hm⟩ : ∃ m, i - A.length = m + 1 :=
          ⟨i - A.length - 1, by omega⟩
        rw [hm, List.getElem?_cons_succ] at hi
        exact absurd rfl (hBdata rfl _ (List.getElem?_mem hi) p b)
      | true =>
        exact ⟨A.length, hgt, hmid⟩
  · intro j x hj
    rcases lt_trichotomy j A.length with hlt | heq | hgt
    · rw [List.getElem?_append_left hlt] at hj
      exact absurd rfl ((hA _ (List.getElem?_mem hj)).2 x)
    · exact ⟨k, by omega, by rw [List.getElem?_append_left hkA]; exact hk⟩
    · rw [List.getElem?_append_right (Nat.le_of_lt hgt)] at hj
      obtain ⟨m, hm⟩ : ∃ m, j - A.length = m + 1 :=
        ⟨j - A.length - 1, by omega⟩
      rw [hm, List.getElem?_cons_succ] at hj
      exact absurd rfl (hB _ (List.getElem?_mem hj) x)

/-- The block size is always positive. -/
theorem BLOCK_SIZE_pos (mtu : Nat) : 0 < BLOCK_SIZE mtu := by
  unfold BLOCK_SIZE; split <;> omega

/-- Behaviour of the upload loop: it returns `bytesWritten` increased by
the whole image length (the per-write rejection handler never stops it),
appends only data-write and progress events, and its data writes are
exactly the `BLOCK_SIZE` slices of the image. -/
theorem ota_upload_loop_spec (bs total : Nat) (hbs : bs ≠ 0) :
    ∀ (fuel : Nat) (bytes : List Nat), bytes.length ≤ fuel →
      ∀ (bw : Nat) (s : St),
      (ota_upload_loop bs total fuel bytes bw s).1 = bw + bytes.length ∧
      ∃ W, (ota_upload_loop bs total fuel bytes bw s).2.trace = s.trace ++ W ∧
        (∀ e ∈ W, (∃ p b, e = Ev.dataWrite p b) ∨ ∃ v, e = Ev.progress v) ∧
        dataWrites W = ota_chunks bs fuel bytes := by
  intro fuel
  induction fuel with
  | zero =>
    intro bytes hlen bw s
    have hb : bytes = [] := List.length_eq_zero.mp (Nat.le_zero.mp hlen)
    subst hb
    simp [ota_upload_loop, ota_chunks, dataWrites]
  | succ n ih =>
    intro bytes hlen bw s
    by_cases hb : bytes = []
    · subst hb
      simp [ota_upload_loop, ota_chunks, dataWrites]
    · have hcond : ¬(bs = 0 ∨ bytes = []) := by
        push_neg; exact ⟨hbs, hb⟩
      rw [ota_upload_loop, if_neg hcond]
      rw [ota_chunks, if_neg hcond]
      dsimp only
      have hdl : (bytes.drop bs).length ≤ n := by
        have := List.length_pos.mpr hb
        simp only [List.length_drop]
        omega
      obtain ⟨hres, W, hW, hWall, hWdata⟩ :=
        ih (bytes.drop bs) hdl (bw + min (bytes.take bs).length bs)
          (emit (Ev.progress
            (((bw + min (bytes.take bs).length bs : Nat) : Rat) / (total : Rat)))
            ((step (Ev.dataWrite (bytes.take bs)) s).2))
      refine ⟨?_, Ev.dataWrite (bytes.take bs) (s.ble s.k) ::
        Ev.progress (((bw + min (bytes.take bs).length bs : Nat) : Rat) / (total : Rat)) ::
        W, ?_, ?_, ?_⟩
      · rw [hres]
        have h1 : (bytes.take bs).length = min bs bytes.length := List.length_take bs bytes
        have h2 : (bytes.drop bs).length = bytes.length - bs := List.length_drop bs bytes
        omega
      · rw [hW]
        simp [step, emit]
      · intro e he
        rcases List.mem_cons.mp he with h | he
        · exact Or.inl ⟨_, _, h⟩
        rcases List.mem_cons.mp he with h | he
        · exact Or.inr ⟨_, h⟩
        · exact hWall e he
      · simp only [dataWrites, List.filterMap_cons] at hWdata ⊢
        rw [hWdata]

/-- Behaviour of the `CTL_DONE`/`CTL_CLOSE` handshake: it appends only
`ctlDone`/`ctlClose` events, and when it reports success neither write
failed. -/
theorem ota_end_upload_process_spec (s : St) :
    ∃ W, (ota_end_upload_process s).2.trace = s.trace ++ W ∧
      (∀ e ∈ W, (∃ x, e = Ev.ctlDone x) ∨ ∃ x, e = Ev.ctlClose x) ∧
      ((ota_end_upload_process s).1 = true →
        Ev.ctlDone false ∉ W ∧ Ev.ctlClose false ∉ W) := by
  unfold ota_end_upload_process step
  cases h1 : s.ble s.k with
  | false =>
    refine ⟨[Ev.ctlDone false], by simp [h1], ?_, by simp [h1]⟩
    intro e he
    simp only [List.mem_singleton] at he
    exact Or.inl ⟨false, he⟩
  | true =>
    cases h2 : s.ble (s.k + 1) with
    | false =>
      refine ⟨[Ev.ctlDone true, Ev.ctlClose false], by simp [h1, h2], ?_,
        by simp [h1, h2]⟩
      intro e he
      rcases List.mem_cons.mp he with h | h
      · exact Or.inl ⟨true, h⟩
      · simp only [List.mem_singleton] at h
        exact Or.inr ⟨false, h⟩
    | true =>
      refine ⟨[Ev.ctlDone true, Ev.ctlClose true], by simp [h1, h2], ?_,
        by simp [h1, h2]⟩
      intro e he
      rcases List.mem_cons.mp he with h | h
      · exact Or.inl ⟨true, h⟩
      · simp only [List.mem_singleton] at h
        exact Or.inr ⟨true, h⟩

/-- Behaviour of `ota_write_firmware_to_device_in_dfu`: its trace is the
arming command followed by upload-stage events only; a failed arming ends
it immediately; a failed handshake write forces the returned
`bytesWritten` to 0; and the returned value is 0 or the image length. -/
theorem ota_write_firmware_spec (mtu : Nat) (bytes : List Nat) (s : St) :
    ∃ (a : Bool) (W : List Ev),
      (ota_write_firmware_to_device_in_dfu mtu bytes s).2.trace =
        s.trace ++ Ev.armCmd a :: W ∧
      (a = false → W = []) ∧
      (∀ e ∈ W, (∃ p b, e = Ev.dataWrite p b) ∨ (∃ v, e = Ev.progress v) ∨
        (∃ x, e = Ev.ctlDone x) ∨ ∃ x, e = Ev.ctlClose x) ∧
      ((Ev.ctlDone false ∈ W ∨ Ev.ctlClose false ∈ W) →
        (ota_write_firmware_to_device_in_dfu mtu bytes s).1 = 0) ∧
      ((ota_write_firmware_to_device_in_dfu mtu bytes s).1 = 0 ∨
        (ota_write_firmware_to_device_in_dfu mtu bytes s).1 = bytes.length) := by
  have hbs : BLOCK_SIZE mtu ≠ 0 := Nat.pos_iff_ne_zero.mp (BLOCK_SIZE_pos mtu)
  cases ha : s.ble s.k with
  | false =>
    have hw : ota_write_firmware_to_device_in_dfu mtu bytes s =
        (0, ⟨s.ble, s.k + 1, s.trace ++ [Ev.armCmd false]⟩) := by
      unfold ota_write_firmware_to_device_in_dfu
        ota_write_start_command_to_control step
      simp [ha]
    rw [hw]
    exact ⟨false, [], by simp, fun _ => rfl, by simp, by simp, Or.inl rfl⟩
  | true =>
    obtain ⟨hres, W1, hW1, hW1all, hW1data⟩ :=
      ota_upload_loop_spec (BLOCK_SIZE mtu) bytes.length hbs bytes.length bytes
        le_rfl 0 ⟨s.ble, s.k + 1, s.trace ++ [Ev.armCmd true]⟩
    obtain ⟨W2, hW2, hW2all, hW2ok⟩ :=
      ota_end_upload_process_spec
        (ota_upload_loop (BLOCK_SIZE mtu) bytes.length bytes.length bytes 0
          ⟨s.ble, s.k + 1, s.trace ++ [Ev.armCmd true]⟩).2
    cases hfin : (ota_end_upload_process
        (ota_upload_loop (BLOCK_SIZE mtu) bytes.length bytes.length bytes 0
          ⟨s.ble, s.k + 1, s.trace ++ [Ev.armCmd true]⟩).2).1 with
    | false =>
      have hw : ota_write_firmware_to_device_in_dfu mtu bytes s =
          (0, (ota_end_upload_process
            (ota_upload_loop (BLOCK_SIZE mtu) bytes.length bytes.length bytes 0
              ⟨s.ble, s.k + 1, s.trace ++ [Ev.armCmd true]⟩).2).2) := by
        unfold ota_write_firmware_to_device_in_dfu
          ota_write_start_command_to_control step
        simp [ha, hfin]
      rw [hw]
      refine ⟨true, W1 ++ W2, ?_, by simp, ?_, fun _ => rfl, Or.inl rfl⟩
      · rw [hW2, hW1]
        simp
      · intro e he
        rcases List.mem_append.mp he with h | h
        · rcases hW1all e h with h1 | h1
          · exact Or.inl h1
          · exact Or.inr (Or.inl h1)
        · rcases hW2all e h with h1 | h1
          · exact Or.inr (Or.inr (Or.inl h1))
          · exact Or.inr (Or.inr (Or.inr h1))
    | true =>
      have hw : ota_write_firmware_to_device_in_dfu mtu bytes s =
          ((ota_upload_loop (BLOCK_SIZE mtu) bytes.length bytes.length bytes 0
              ⟨s.ble, s.k + 1, s.trace ++ [Ev.armCmd true]⟩).1,
            emit (Ev.progress 1) (ota_end_upload_process
              (ota_upload_loop (BLOCK_SIZE mtu) bytes.length bytes.length bytes 0
                ⟨s.ble, s.k + 1, s.trace ++ [Ev.armCmd true]⟩).2).2) := by
        unfold ota_write_firmware_to_device_in_dfu
          ota_write_start_command_to_control step
        simp [ha, hfin]
      rw [hw]
      refine ⟨true, W1 ++ W2 ++ [Ev.progress 1], ?_, by simp, ?_, ?_, ?_⟩
      · show (emit (Ev.progress 1) _).trace = _
        unfold emit
        rw [hW2, hW1]
        simp
      · intro e he
        rcases List.mem_append.mp he with h | h
        · rcases List.mem_append.mp h with h2 | h2
          · rcases hW1all e h2 with h1 | h1
            · exact Or.inl h1
            · exact Or.inr (Or.inl h1)
          · rcases hW2all e h2 with h1 | h1
            · exact Or.inr (Or.inr (Or.inl h1))
            · exact Or.inr (Or.inr (Or.inr h1))
        · simp only [List.mem_singleton] at h
          exact Or.inr (Or.inl ⟨1, h⟩)
      · intro hmem
        exfalso
        have hnotW2 := hW2ok hfin
        rcases hmem with hmem | hmem
        · rcases List.mem_append.mp hmem with h | h
          · rcases List.mem_append.mp h with h2 | h2
            · rcases hW1all _ h2 with ⟨p, b, h1⟩ | ⟨v, h1⟩ <;> simp at h1
            · exact hnotW2.1 h2
          · simp at h
        · rcases List.mem_append.mp hmem with h | h
          · rcases List.mem_append.mp h with h2 | h2
            · rcases hW1all _ h2 with ⟨p, b, h1⟩ | ⟨v, h1⟩ <;> simp at h1
            · exact hnotW2.2 h2
          · simp at h
      · exact Or.inr (by rw [hres]; omega)

/-- Postcondition of the upload stage, assuming the prior trace contains
a successful DFU confirmation and only pre-upload events: the resulting
trace is state-machine safe, and a failed handshake write forces the
stage to report failure (on a nonempty image). -/
theorem ota_upload_and_cancel_post (mtu : Nat) (bytes : List Nat) (s : St)
    (k : Nat) (hk : s.trace[k]? = some (Ev.confirmDFU true))
    (hpre : ∀ e ∈ s.trace, preEv e) :
    dfu_safety (ota_upload_and_cancel mtu bytes s).2.trace ∧
    ((Ev.ctlDone false ∈ (ota_upload_and_cancel mtu bytes s).2.trace ∨
      Ev.ctlClose false ∈ (ota_upload_and_cancel mtu bytes s).2.trace) →
      bytes ≠ [] → (ota_upload_and_cancel mtu bytes s).1 = false) := by
  obtain ⟨a, W, hW, haW, hWall, hWctl, hWres⟩ :=
    ota_write_firmware_spec mtu bytes (emit (Ev.progress 0) s)
  have hkA : k < s.trace.length := (List.getElem?_eq_some.mp hk).1
  obtain ⟨x, htr, hres⟩ : ∃ x,
      (ota_upload_and_cancel mtu bytes s).2.trace =
        (s.trace ++ [Ev.progress 0]) ++ Ev.armCmd a :: (W ++ [Ev.cancelConn x]) ∧
      (ota_upload_and_cancel mtu bytes s).1 =
        decide ((ota_write_firmware_to_device_in_dfu mtu bytes
          (emit (Ev.progress 0) s)).1 = bytes.length) := by
    refine ⟨(ota_write_firmware_to_device_in_dfu mtu bytes
      (emit (Ev.progress 0) s)).2.ble
        (ota_write_firmware_to_device_in_dfu mtu bytes
          (emit (Ev.progress 0) s)).2.k, ?_, rfl⟩
    show (step Ev.cancelConn
      (ota_write_firmware_to_device_in_dfu mtu bytes (emit (Ev.progress 0) s)).2).2.trace = _
    unfold step
    rw [hW]
    simp [emit]
  constructor
  · rw [htr]
    refine dfu_safety_split _ _ a k ?_ ?_ ?_ ?_
    · rw [List.getElem?_append_left hkA]; exact hk
    · intro e he
      rcases List.mem_append.mp he with h | h
      · exact ⟨(hpre e h).1, (hpre e h).2.1⟩
      · simp only [List.mem_singleton] at h
        subst h
        exact ⟨by simp, by simp⟩
    · intro e he
      rcases List.mem_append.mp he with h | h
      · rcases hWall e h with ⟨p, b, h1⟩ | ⟨v, h1⟩ | ⟨y, h1⟩ | ⟨y, h1⟩ <;>
          subst h1 <;> simp
      · simp only [List.mem_singleton] at h
        subst h
        simp
    · intro hafalse e he
      rcases List.mem_append.mp he with h | h
      · rw [haW hafalse] at h
        simp at h
      · simp only [List.mem_singleton] at h
        subst h
        simp
  · intro hmem hne
    have hwr : (ota_write_firmware_to_device_in_dfu mtu bytes
        (emit (Ev.progress 0) s)).1 = 0 := by
      apply hWctl
      rcases hmem with hmem | hmem
      · rw [htr] at hmem
        rcases List.mem_append.mp hmem with h | h
        · rcases List.mem_append.mp h with h2 | h2
          · exact absurd rfl ((hpre _ h2).2.2.1)
          · simp at h2
        · rcases List.mem_cons.mp h with h2 | h2
          · simp at h2
          · rcases List.mem_append.mp h2 with h3 | h3
            · exact Or.inl h3
            · simp at h3
      · rw [htr] at hmem
        rcases List.mem_append.mp hmem with h | h
        · rcases List.mem_append.mp h with h2 | h2
          · exact absurd rfl ((hpre _ h2).2.2.2)
          · simp at h2
        · rcases List.mem_cons.mp h with h2 | h2
          · simp at h2
          · rcases List.mem_append.mp h2 with h3 | h3
            · exact Or.inr h3
            · simp at h3
    rw [hres, hwr]
    simp only [decide_eq_false_iff_not]
    intro h0
    exact hne (List.length_eq_zero.mp h0.symm)

/-- A trace of pre-upload events only is safe and holds no failed
handshake write. -/
theorem noupload_post (tr : List Ev) (hpre : ∀ e ∈ tr, preEv e) :
    dfu_safety tr ∧ ¬(Ev.ctlDone false ∈ tr ∨ Ev.ctlClose false ∈ tr) := by
  constructor
  · exact dfu_safety_nodata tr (fun e he => ⟨(hpre e he).1, (hpre e he).2.1⟩)
  · rintro (h | h)
    · exact (hpre _ h).2.2.1 rfl
    · exact (hpre _ h).2.2.2 rfl

/-- Postcondition of the reboot-reconnect-upload path. -/
theorem ota_reboot_and_upload_post (mtu : Nat) (bytes : List Nat) (s : St)
    (hpre : ∀ e ∈ s.trace, preEv e) :
    dfu_safety (ota_reboot_and_upload mtu bytes s).2.trace ∧
    ((Ev.ctlDone false ∈ (ota_reboot_and_upload mtu bytes s).2.trace ∨
      Ev.ctlClose false ∈ (ota_reboot_and_upload mtu bytes s).2.trace) →
      bytes ≠ [] → (ota_reboot_and_upload mtu bytes s).1 = false) := by
  have hpre2 : ∀ (app : List Ev) (res : Bool), (∀ e ∈ app, preEv e) →
      dfu_safety (s.trace ++ app) ∧
      ((Ev.ctlDone false ∈ s.trace ++ app ∨ Ev.ctlClose false ∈ s.trace ++ app) →
        bytes ≠ [] → res = false) := by
    intro app res happ
    have hnp := noupload_post (s.trace ++ app) (by
      intro e he
      rcases List.mem_append.mp he with h | h
      · exact hpre e h
      · exact happ e h)
    exact ⟨hnp.1, fun hmem _ => absurd hmem hnp.2⟩
  cases hw : s.ble s.k with
  | false =>
    cases hc2 : s.ble (s.k + 1) with
    | true =>
      have heq : ota_reboot_and_upload mtu bytes s =
          (false, ⟨s.ble, s.k + 2,
            s.trace ++ [Ev.rebootCmd false, Ev.cancelConn true]⟩) := by
        unfold ota_reboot_and_upload ota_reboot_device_into_dfu step
        simp [hw, hc2]
      rw [heq]
      exact hpre2 _ _ (by intro e he; fin_cases he <;> simp [preEv])
    | false =>
      have heq : ota_reboot_and_upload mtu bytes s =
          (decide (0 = bytes.length), ⟨s.ble, s.k + 2,
            s.trace ++ [Ev.rebootCmd false, Ev.cancelConn false]⟩) := by
        unfold ota_reboot_and_upload ota_reboot_device_into_dfu step
        simp [hw, hc2]
      rw [heq]
      exact hpre2 _ _ (by intro e he; fin_cases he <;> simp [preEv])
  | true =>
    cases hc : s.ble (s.k + 1) with
    | false =>
      cases hc3 : s.ble (s.k + 2) with
      | true =>
        have heq : ota_reboot_and_upload mtu bytes s =
            (false, ⟨s.ble, s.k + 3, s.trace ++
              [Ev.rebootCmd true, Ev.cancelConn false, Ev.cancelConn true]⟩) := by
          unfold ota_reboot_and_upload ota_reboot_device_into_dfu step
          simp [hw, hc, hc3]
        rw [heq]
        exact hpre2 _ _ (by intro e he; fin_cases he <;> simp [preEv])
      | false =>
        have heq : ota_reboot_and_upload mtu bytes s =
            (decide (0 = bytes.length), ⟨s.ble, s.k + 3, s.trace ++
              [Ev.rebootCmd true, Ev.cancelConn false, Ev.cancelConn false]⟩) := by
          unfold ota_reboot_and_upload ota_reboot_device_into_dfu step
          simp [hw, hc, hc3]
        rw [heq]
        exact hpre2 _ _ (by intro e he; fin_cases he <;> simp [preEv])
    | true =>
      cases hc4 : s.ble (s.k + 2) with
      | false =>
        have heq : ota_reboot_and_upload mtu bytes s =
            (false, ⟨s.ble, s.k + 3, s.trace ++
              [Ev.rebootCmd true, Ev.cancelConn true, Ev.connectAttempt false]⟩) := by
          unfold ota_reboot_and_upload ota_reboot_device_into_dfu
            ota_connect_and_discover step
          simp [hw, hc, hc4]
        rw [heq]
        exact hpre2 _ _ (by intro e he; fin_cases he <;> simp [preEv])
      | true =>
        cases hc5 : s.ble (s.k + 3) with
        | false =>
          have heq : ota_reboot_and_upload mtu bytes s =
              (false, ⟨s.ble, s.k + 4, s.trace ++
                [Ev.rebootCmd true, Ev.cancelConn true, Ev.connectAttempt true,
                  Ev.confirmDFU false]⟩) := by
            unfold ota_reboot_and_upload ota_reboot_device_into_dfu
              ota_connect_and_discover ota_confirm_device_in_dfu step
            simp [hw, hc, hc4, hc5]
          rw [heq]
          exact hpre2 _ _ (by intro e he; fin_cases he <;> simp [preEv])
        | true =>
          have heq : ota_reboot_and_upload mtu bytes s =
              ota_upload_and_cancel mtu bytes ⟨s.ble, s.k + 4, s.trace ++
                [Ev.rebootCmd true, Ev.cancelConn true, Ev.connectAttempt true,
                  Ev.confirmDFU true]⟩ := by
            unfold ota_reboot_and_upload ota_reboot_device_into_dfu
              ota_connect_and_discover ota_confirm_device_in_dfu step
            simp [hw, hc, hc4, hc5]
          rw [heq]
          refine ota_upload_and_cancel_post mtu bytes _ (s.trace.length + 3) ?_ ?_
          · show (s.trace ++ [Ev.rebootCmd true, Ev.cancelConn true,
              Ev.connectAttempt true, Ev.confirmDFU true])[s.trace.length + 3]? = _
            rw [List.getElem?_append_right (by omega)]
            have h3 : s.trace.length + 3 - s.trace.length = 3 := by omega
            rw [h3]
            rfl
          · intro e he
            rcases List.mem_append.mp he with h | h
            · exact hpre e h
            · fin_cases h <;> simp [preEv]

/-- Postcondition of a whole `ota_perform_device_update` run: the trace is
state-machine safe, and a failed handshake write forces the run to report
failure (on a nonempty image). -/
theorem ota_perform_device_update_post (skip_reboot : Bool) (mtu : Nat)
    (bytes : List Nat) (s : St) (hpre : ∀ e ∈ s.trace, preEv e) :
    dfu_safety (ota_perform_device_update skip_reboot mtu bytes s).2.trace ∧
    ((Ev.ctlDone false ∈ (ota_perform_device_update skip_reboot mtu bytes s).2.trace ∨
      Ev.ctlClose false ∈ (ota_perform_device_update skip_reboot mtu bytes s).2.trace) →
      bytes ≠ [] → (ota_perform_device_update skip_reboot mtu bytes s).1 = false) := by
  cases hc1 : s.ble s.k with
  | false =>
    have heq : ota_perform_device_update skip_reboot mtu bytes s =
        (false, ⟨s.ble, s.k + 1, s.trace ++ [Ev.connectAttempt false]⟩) := by
      unfold ota_perform_device_update ota_connect_and_discover step
      simp [hc1]
    rw [heq]
    have hnp := noupload_post (s.trace ++ [Ev.connectAttempt false]) (by
      intro e he
      rcases List.mem_append.mp he with h | h
      · exact hpre e h
      · fin_cases h <;> simp [preEv])
    exact ⟨hnp.1, fun hmem _ => absurd hmem hnp.2⟩
  | true =>
    cases skip_reboot with
    | false =>
      have heq : ota_perform_device_update false mtu bytes s =
          ota_reboot_and_upload mtu bytes
            ⟨s.ble, s.k + 1, s.trace ++ [Ev.connectAttempt true]⟩ := by
        unfold ota_perform_device_update ota_connect_and_discover step
        simp [hc1]
      rw [heq]
      refine ota_reboot_and_upload_post mtu bytes _ ?_
      intro e he
      rcases List.mem_append.mp he with h | h
      · exact hpre e h
      · fin_cases h <;> simp [preEv]
    | true =>
      cases hc2 : s.ble (s.k + 1) with
      | false =>
        have heq : ota_perform_device_update true mtu bytes s =
            ota_reboot_and_upload mtu bytes ⟨s.ble, s.k + 2,
              s.trace ++ [Ev.connectAttempt true, Ev.confirmDFU false]⟩ := by
          unfold ota_perform_device_update ota_connect_and_discover
            ota_confirm_device_in_dfu step
          simp [hc1, hc2]
        rw [heq]
        refine ota_reboot_and_upload_post mtu bytes _ ?_
        intro e he
        rcases List.mem_append.mp he with h | h
        · exact hpre e h
        · fin_cases h <;> simp [preEv]
      | true =>
        have heq : ota_perform_device_update true mtu bytes s =
            ota_upload_and_cancel mtu bytes ⟨s.ble, s.k + 2,
              s.trace ++ [Ev.connectAttempt true, Ev.confirmDFU true]⟩ := by
          unfold ota_perform_device_update ota_connect_and_discover
            ota_confirm_device_in_dfu step
          simp [hc1, hc2]
        rw [heq]
        refine ota_upload_and_cancel_post mtu bytes _ (s.trace.length + 1) ?_ ?_
        · show (s.trace ++ [Ev.connectAttempt true,
            Ev.confirmDFU true])[s.trace.length + 1]? = _
          rw [List.getElem?_append_right (by omega)]
          have h1 : s.trace.length + 1 - s.trace.length = 1 := by omega
          rw [h1]
          rfl
        · intro e he
          rcases List.mem_append.mp he with h | h
          · exact hpre e h
          · fin_cases h <;> simp [preEv]

/-- Structure of the slice sequence: concatenating the slices gives back
the image, every slice but the last has exactly `bs` bytes, and the last
slice is the remainder left after the full blocks. -/
theorem ota_chunks_spec (bs : Nat) (hbs : bs ≠ 0) :
    ∀ (fuel : Nat) (bytes : List Nat), bytes.length ≤ fuel →
      (ota_chunks bs fuel bytes).flatten = bytes ∧
      (∀ c ∈ (ota_chunks bs fuel bytes).dropLast, c.length = bs) ∧
      (bytes ≠ [] → (ota_chunks bs fuel bytes).getLast? =
        some (bytes.drop (bs * ((ota_chunks bs fuel bytes).length - 1)))) := by
  intro fuel
  induction fuel with
  | zero =>
    intro bytes hlen
    have hb : bytes = [] := List.length_eq_zero.mp (Nat.le_zero.mp hlen)
    subst hb
    simp [ota_chunks]
  | succ n ih =>
    intro bytes hlen
    by_cases hb : bytes = []
    · subst hb
      simp [ota_chunks]
    · have hcond : ¬(bs = 0 ∨ bytes = []) := by push_neg; exact ⟨hbs, hb⟩
      have hchunks : ota_chunks bs (n + 1) bytes =
          bytes.take bs :: ota_chunks bs n (bytes.drop bs) := by
        rw [ota_chunks, if_neg hcond]
      have hlen0 : 0 < bytes.length := List.length_pos.mpr hb
      have hdl : (bytes.drop bs).length ≤ n := by
        simp only [List.length_drop]; omega
      obtain ⟨hj, hdrp, hlast⟩ := ih (bytes.drop bs) hdl
      by_cases hdrop : bytes.drop bs = []
      · have hle : bytes.length ≤ bs := by
          have := List.drop_eq_nil_iff.mp hdrop
          exact this
        have hchunks2 : ota_chunks bs (n + 1) bytes = [bytes.take bs] := by
          rw [hchunks, hdrop]
          cases n <;> simp [ota_chunks]
        rw [hchunks2]
        refine ⟨by simp [List.take_of_length_le hle], by simp, fun _ => ?_⟩
        simp [List.take_of_length_le hle]
      · have hcond2 : ¬(bs = 0 ∨ bytes.drop bs = []) := by
          push_neg; exact ⟨hbs, hdrop⟩
        have hn : 0 < n := by
          have hpos : 0 < (bytes.drop bs).length := List.length_pos.mpr hdrop
          omega
        obtain ⟨c, cs, hcc⟩ : ∃ c cs, ota_chunks bs n (bytes.drop bs) = c :: cs := by
          obtain ⟨m, hm⟩ : ∃ m, n = m + 1 := ⟨n - 1, by omega⟩
          subst hm
          rw [ota_chunks, if_neg hcond2]
          exact ⟨_, _, rfl⟩
        have hbslen : bs ≤ bytes.length := by
          by_contra hlt
          exact hdrop (List.drop_eq_nil_iff.mpr (by omega))
        refine ⟨?_, ?_, fun _ => ?_⟩
        · rw [hchunks]
          rw [List.flatten_cons, hj]
          exact List.take_append_drop bs bytes
        · rw [hchunks, hcc]
          intro c' hc'
          have hdlc : (bytes.take bs :: c :: cs).dropLast =
              bytes.take bs :: (c :: cs).dropLast := rfl
          rw [hdlc] at hc'
          rcases List.mem_cons.mp hc' with h | h
          · subst h
            rw [List.length_take]
            omega
          · rw [← hcc] at h
            exact hdrp c' h
        · rw [hchunks, hcc]
          have hgl : (bytes.take bs :: c :: cs).getLast? = (c :: cs).getLast? := rfl
          rw [hgl, ← hcc, hlast hdrop]
          have hdd : (bytes.drop bs).drop
              (bs * ((ota_chunks bs n (bytes.drop bs)).length - 1)) =
              bytes.drop (bs + bs * ((ota_chunks bs n (bytes.drop bs)).length - 1)) :=
            List.drop_drop _ bs bytes
          rw [hdd]
          congr 1
          rw [hcc]
          simp only [List.length_cons, Nat.add_sub_cancel]
          ring

/-! ### Orchestrator and engine claims -/

/-- C2: the claim states that on an empty plan the progress callback is
invoked with exactly `1.0` once.  The code calls `this.onProgress(100)`:
the single progress value of the run is `100`, not `1.0`. -/
theorem C2_counterexample :
    (ota_turnkey_firmware_update 245 [] false (St.mk (fun _ => true) 0 [])).1 =
      .ok (-1) ∧
    progressValues
      (ota_turnkey_firmware_update 245 [] false (St.mk (fun _ => true) 0 [])).2.trace =
      [100] ∧
    (100 : Rat) ≠ 1 := by
  refine ⟨rfl, rfl, by norm_num⟩

/-- C2 (amended): for every run with an empty plan the orchestrator
invokes the progress callback exactly once, with the value `100`, and
returns NOUPDATE (−1), never raising. -/
theorem C2_amended (mtu : Nat) (isInOTA : Bool) (ble : Nat → Bool) (k : Nat) :
    (ota_turnkey_firmware_update mtu [] isInOTA (St.mk ble k [])).1 = .ok (-1) ∧
    progressValues
      (ota_turnkey_firmware_update mtu [] isInOTA (St.mk ble k [])).2.trace =
      [100] :=
  ⟨rfl, rfl⟩

/-- C9: in every execution of `ota_perform_device_update`, no OTA Data
write is issued before the arming `CTL_START`, and no arming `CTL_START`
is issued before the Gecko Bootloader Version characteristic has been
read successfully. -/
theorem C9_state_machine_safety (skip_reboot : Bool) (mtu : Nat)
    (bytes : List Nat) (ble : Nat → Bool) (k : Nat) :
    dfu_safety
      (ota_perform_device_update skip_reboot mtu bytes (St.mk ble k [])).2.trace :=
  (ota_perform_device_update_post skip_reboot mtu bytes (St.mk ble k [])
    (by simp)).1

/-- C7: the claim states that once all data bytes are written, a failure
during the termination handshake (`CTL_DONE`/`CTL_CLOSE`/disconnect) is
non-fatal.  In this run the single data write succeeds and carries the
whole image, the `CTL_DONE` write fails, and the image is reported **not**
applied (the write routine returned 0 instead of the byte count). -/
theorem C7_counterexample :
    (ota_perform_device_update true 10 [1, 2] (St.mk (fun n => n != 4) 0 [])).1 =
      false ∧
    dataWriteRuns (ota_perform_device_update true 10 [1, 2]
      (St.mk (fun n => n != 4) 0 [])).2.trace = [([1, 2], true)] ∧
    Ev.ctlDone false ∈
      (ota_perform_device_update true 10 [1, 2]
        (St.mk (fun n => n != 4) 0 [])).2.trace := by
  exact ⟨rfl, by decide, by decide⟩

/-- C7 (amended): a failure of the `CTL_DONE` or `CTL_CLOSE` write makes
the image update report failure (bytes-written is forced to 0), while the
defensive post-upload disconnect is non-fatal for **every** image and
every oracle: the upload stage's verdict is exactly
`bytes-written = image length`, fixed before the disconnect is attempted
(`totalBytesWritten` is already assigned when the `cancelDeviceConnection`
rejection reaches the outer `catch`), so the disconnect outcome cannot
change the result — exhibited concretely by a run in which the disconnect
fails and the image is still reported applied. -/
theorem C7_amended (skip_reboot : Bool) (mtu : Nat) (bytes : List Nat)
    (ble : Nat → Bool) (k : Nat) (s : St)
    (hmem : Ev.ctlDone false ∈
        (ota_perform_device_update skip_reboot mtu bytes (St.mk ble k [])).2.trace ∨
      Ev.ctlClose false ∈
        (ota_perform_device_update skip_reboot mtu bytes (St.mk ble k [])).2.trace)
    (hne : bytes ≠ []) :
    (ota_perform_device_update skip_reboot mtu bytes (St.mk ble k [])).1 = false ∧
    (ota_upload_and_cancel mtu bytes s).1 =
      decide ((ota_write_firmware_to_device_in_dfu mtu bytes
        (emit (Ev.progress 0) s)).1 = bytes.length) ∧
    (ota_perform_device_update true 10 [1, 2] (St.mk (fun n => n != 6) 0 [])).1 =
      true ∧
    Ev.cancelConn false ∈
      (ota_perform_device_update true 10 [1, 2]
        (St.mk (fun n => n != 6) 0 [])).2.trace :=
  ⟨(ota_perform_device_update_post skip_reboot mtu bytes (St.mk ble k [])
      (by simp)).2 hmem hne,
    rfl, by rfl, by decide⟩

/-- C7 witness: the amended statement applied to the run in which the
`CTL_DONE` write fails after a complete upload, with the non-fatality
conjunct instantiated at a state whose next oracle outcomes all fail. -/
theorem C7_witness :
    (ota_perform_device_update true 10 [1, 2] (St.mk (fun n => n != 4) 0 [])).1 =
      false ∧
    (ota_upload_and_cancel 10 [1, 2] (St.mk (fun _ => false) 7 [])).1 =
      decide ((ota_write_firmware_to_device_in_dfu 10 [1, 2]
        (emit (Ev.progress 0) (St.mk (fun _ => false) 7 []))).1 =
          ([1, 2] : List Nat).length) ∧
    (ota_perform_device_update true 10 [1, 2] (St.mk (fun n => n != 6) 0 [])).1 =
      true ∧
    Ev.cancelConn false ∈
      (ota_perform_device_update true 10 [1, 2]
        (St.mk (fun n => n != 6) 0 [])).2.trace :=
  C7_amended true 10 [1, 2] (fun n => n != 4) 0 (St.mk (fun _ => false) 7 [])
    (by decide) (by decide)

/-- C6: the claim states a failed OTA Data write fails the image and
stops the upload.  The per-write `.catch` handler only returns from the
handler, so the loop continues: in this run the first block's write fails,
the second block is still written, `bytesWritten` reaches the image
length, and the update is reported successful. -/
theorem C6_write_failure_continues :
    (ota_perform_device_update true 10 [1, 2, 3, 4]
      (St.mk (fun n => n != 3) 0 [])).1 = true ∧
    dataWriteRuns (ota_perform_device_update true 10 [1, 2, 3, 4]
        (St.mk (fun n => n != 3) 0 [])).2.trace =
      [([1, 2], false), ([3, 4], true)] := by
  exact ⟨rfl, by decide⟩

/-- C8: the claim states protocol failures are retried exactly once and
the orchestrator returns 0 on a second failure, never raising.  The
retry machinery exists (second and third conjuncts: a single transient
failure yields 1, two consecutive failures yield 0), but the
`cancelDeviceConnection` preceding the retry in `ota_flash` is not
guarded by `try`/`catch`: when it rejects — first conjunct — the
rejection propagates out of `ota_turnkey_firmware_update` instead of a
numeric return. -/
theorem C8_unguarded_cancel :
    (ota_turnkey_firmware_update 10 [[1]] true
      (St.mk (fun n => n == 0) 0 [])).1 = .error () ∧
    (ota_turnkey_firmware_update 10 [[1]] true
      (St.mk (fun n => n != 1) 0 [])).1 = .ok 1 ∧
    (ota_turnkey_firmware_update 10 [[1]] true
      (St.mk (fun n => !(n == 1 || n == 3)) 0 [])).1 = .ok 0 ∧
    (ota_turnkey_firmware_update 10 [[1]] true
        (St.mk (fun n => n == 0) 0 [])).2.trace =
      [Ev.cancelConn true, Ev.connectAttempt false, Ev.cancelConn false] := by
  refine ⟨rfl, rfl, rfl, rfl⟩

/-- C5: the block size is `mtu − 8` for `mtu > 8` and `1` otherwise;
the OTA Data writes of the upload loop are exactly the consecutive
block-size slices of the image: all but the last carry exactly
`BLOCK_SIZE` bytes and the last carries the remainder. -/
theorem C5_block_sizing (mtu : Nat) (bytes : List Nat) (ble : Nat → Bool)
    (k : Nat) (hne : bytes ≠ []) :
    (mtu > 8 → BLOCK_SIZE mtu = mtu - 8) ∧
    (mtu ≤ 8 → BLOCK_SIZE mtu = 1) ∧
    dataWrites (ota_upload_loop (BLOCK_SIZE mtu) bytes.length bytes.length bytes 0
        (St.mk ble k [])).2.trace =
      ota_chunks (BLOCK_SIZE mtu) bytes.length bytes ∧
    (∀ c ∈ (ota_chunks (BLOCK_SIZE mtu) bytes.length bytes).dropLast,
      c.length = BLOCK_SIZE mtu) ∧
    (ota_chunks (BLOCK_SIZE mtu) bytes.length bytes).getLast? =
      some (bytes.drop
        (BLOCK_SIZE mtu * ((ota_chunks (BLOCK_SIZE mtu) bytes.length bytes).length - 1))) ∧
    (ota_chunks (BLOCK_SIZE mtu) bytes.length bytes).flatten = bytes := by
  have hbs : BLOCK_SIZE mtu ≠ 0 := Nat.pos_iff_ne_zero.mp (BLOCK_SIZE_pos mtu)
  obtain ⟨hj, hdl, hlast⟩ := ota_chunks_spec (BLOCK_SIZE mtu) hbs
    bytes.length bytes le_rfl
  obtain ⟨_, W, hW, _, hWdata⟩ := ota_upload_loop_spec (BLOCK_SIZE mtu)
    bytes.length hbs bytes.length bytes le_rfl 0 (St.mk ble k [])
  refine ⟨fun h => by simp [BLOCK_SIZE, h], fun h => by
    simp [BLOCK_SIZE]
    omega, ?_, hdl, hlast hne, hj⟩
  rw [hW]
  show dataWrites ([] ++ W) = _
  rw [List.nil_append, hWdata]

/-- C5 witness: MTU 12 (block size 4) and a ten-byte image: writes of
sizes 4, 4, 2. -/
theorem C5_witness :
    ([0, 1, 2, 3, 4, 5, 6, 7, 8, 9] : List Nat) ≠ [] ∧
    ((12 > 8 → BLOCK_SIZE 12 = 12 - 8) ∧
    (12 ≤ 8 → BLOCK_SIZE 12 = 1) ∧
    dataWrites (ota_upload_loop (BLOCK_SIZE 12)
        ([0, 1, 2, 3, 4, 5, 6, 7, 8, 9] : List Nat).length
        ([0, 1, 2, 3, 4, 5, 6, 7, 8, 9] : List Nat).length
        [0, 1, 2, 3, 4, 5, 6, 7, 8, 9] 0
        (St.mk (fun _ => true) 0 [])).2.trace =
      ota_chunks (BLOCK_SIZE 12) 10 [0, 1, 2, 3, 4, 5, 6, 7, 8, 9] ∧
    (∀ c ∈ (ota_chunks (BLOCK_SIZE 12) 10
        [0, 1, 2, 3, 4, 5, 6, 7, 8, 9]).dropLast, c.length = BLOCK_SIZE 12) ∧
    (ota_chunks (BLOCK_SIZE 12) 10 [0, 1, 2, 3, 4, 5, 6, 7, 8, 9]).getLast? =
      some (([0, 1, 2, 3, 4, 5, 6, 7, 8, 9] : List Nat).drop
        (BLOCK_SIZE 12 * ((ota_chunks (BLOCK_SIZE 12) 10
          [0, 1, 2, 3, 4, 5, 6, 7, 8, 9]).length - 1))) ∧
    (ota_chunks (BLOCK_SIZE 12) 10 [0, 1, 2, 3, 4, 5, 6, 7, 8, 9]).flatten =
      [0, 1, 2, 3, 4, 5, 6, 7, 8, 9]) :=
  ⟨by decide, C5_block_sizing 12 [0, 1, 2, 3, 4, 5, 6, 7, 8, 9]
    (fun _ => true) 0 (by decide)⟩

end ZB

/-! ### Resolver sanity examples (scenarios S1/S2 of the spec) -/

example :
    ZB.get_latest_fw_info ZB.idxWithApl "ma" (some "v2") = .ok [] := by decide

example :
    ZB.get_latest_fw_info ZB.idxWithApl "zz" (some "v2") =
      .error (.code .FIRMWARE_INDEX_DEVICE_UNKNOWN) := by decide
